import Mathlib

/-!
Shallow embedding of the firestarter-sdk client library (TypeScript).

The modelled units are:
  * the localStorage-backed stores `PipeAccountStorage` and `PipeFileStorage`
    (src/unnamed/part_002);
  * `PipeClient.getAuthHeaders`, `PipeClient.exchangeSolForPipe` and
    `PipeClient.calculateBlake3Hash` (src/src/client.ts);
  * `validateAmount` (src/src/validation.ts).

JavaScript conventions carried over into the model:
  * optional string fields are `Option String`; JS truthiness of such a field
    (`if (account.username)`) is false exactly on `none` and on the empty
    string;
  * optional numeric fields are `Option Nat`; JS truthiness is false on `none`
    and on `0`;
  * a `try/catch` around a storage write is modelled by a `writeOk : Bool`
    flag: `writeOk = false` means `localStorage.setItem` threw.
-/

namespace Firestarter

/-- JS truthiness of an optional string value: `undefined` / missing and `""`
are falsy, every other string is truthy. -/
def strTruthy : Option String → Bool
  | none => false
  | some s => s != ""

/-- JS truthiness of an optional number: `undefined` / missing and `0` are
falsy. -/
def natTruthy : Option Nat → Bool
  | none => false
  | some n => n != 0

/-! ## File manifest store (`PipeFileStorage`, src/unnamed/part_002) -/

/-- A `FileRecord` (src/src/types.ts).  `uploadedAt` is a timestamp. -/
structure FileRecord where
  fileId : String
  fileName : String
  size : Nat
  uploadedAt : Nat
  blake3Hash : String
deriving DecidableEq, Repr

/-- JS `Array.prototype.findIndex`, with the `-1` result modelled as `none`
(the source only tests `existingIndex >= 0`). -/
def findIndex {α : Type} (p : α → Bool) : List α → Option Nat
  | [] => none
  | x :: xs => if p x then some 0 else (findIndex p xs).map (· + 1)

/-- The pure list transformation inside `PipeFileStorage.addFile`
(src/unnamed/part_002 lines 172-195): if a record with the same `fileId`
exists it is updated in place (`files[existingIndex] = file`); otherwise the
new record is prepended (`unshift`) and, when the result exceeds `maxFiles`,
`files.splice(this.maxFiles)` keeps only the first `maxFiles` entries —
which is exactly `List.take maxFiles`. -/
def addFileList (maxFiles : Nat) (file : FileRecord) (files : List FileRecord) :
    List FileRecord :=
  match findIndex (fun f => f.fileId == file.fileId) files with
  | some i => files.set i file
  | none => (file :: files).take maxFiles

/-- The manifest obtained by a sequence of `addFile` operations starting from
the empty list. -/
def buildManifest (maxFiles : Nat) (ops : List FileRecord) : List FileRecord :=
  ops.foldl (fun s f => addFileList maxFiles f s) []

/-- Outcome of a storage operation: whether an exception reached the caller,
and the resulting persisted state. -/
structure OpOutcome (σ : Type) where
  raised : Bool
  state : σ
deriving DecidableEq, Repr

/-- `PipeFileStorage.addFile` (src/unnamed/part_002 lines 172-195): the whole
body is wrapped in `try { ... } catch (error) { console.error(...) }` — a
failing `setItem` is logged and swallowed, the caller sees a normal return
and the stored list is unchanged. -/
def PipeFileStorage.addFile (writeOk : Bool) (maxFiles : Nat) (file : FileRecord)
    (files : List FileRecord) : OpOutcome (List FileRecord) :=
  if writeOk then ⟨false, addFileList maxFiles file files⟩
  else ⟨false, files⟩

/-- `PipeFileStorage.removeFile` (src/unnamed/part_002 lines 229-237): filters
the list by `fileId` and writes it back; a failing `setItem` is caught,
logged and swallowed. -/
def PipeFileStorage.removeFile (writeOk : Bool) (fileId : String)
    (files : List FileRecord) : OpOutcome (List FileRecord) :=
  if writeOk then ⟨false, files.filter (fun f => f.fileId != fileId)⟩
  else ⟨false, files⟩

/-! ## Credential store (`PipeAccountStorage`, src/unnamed/part_002) -/

/-- An account record as parsed back from localStorage: any field may be
missing. Only the four fields inspected by `load` are modelled. -/
structure StoredAccount where
  username : Option String
  password : Option String
  userId : Option String
  userAppKey : Option String
deriving DecidableEq, Repr

/-- Contents of the localStorage slot backing `PipeAccountStorage`. `corrupt`
stands for data on which `JSON.parse` throws. -/
inductive AccountSlot
  | empty
  | corrupt
  | record (a : StoredAccount)
deriving DecidableEq, Repr

/-- `PipeAccountStorage.load` (src/unnamed/part_002 lines 63-82): returns
`null` on an empty slot; on a parse failure the `catch` logs and returns
`null` without clearing; on a parsed record it requires `username`,
`password` and `userId` to be truthy (note: `userAppKey` is NOT checked),
clearing the slot and returning `null` otherwise.  The function is total:
no error escapes to the caller.  Result: (returned value, slot afterwards). -/
def PipeAccountStorage.load : AccountSlot → Option StoredAccount × AccountSlot
  | .empty => (none, .empty)
  | .corrupt => (none, .corrupt)
  | .record a =>
    if strTruthy a.username && strTruthy a.password && strTruthy a.userId then
      (some a, .record a)
    else
      (none, .empty)

/-- `PipeAccountStorage.save` (src/unnamed/part_002 lines 50-57): a failing
`setItem` is logged and then re-thrown (`throw error`), so the failure
reaches the caller and the slot keeps its previous contents. -/
def PipeAccountStorage.save (writeOk : Bool) (a : StoredAccount)
    (slot : AccountSlot) : OpOutcome AccountSlot :=
  if writeOk then ⟨false, .record a⟩ else ⟨true, slot⟩

/-! ## Authentication (`PipeClient.getAuthHeaders`, src/src/client.ts 578-641) -/

/-- A `PipeAccount` (src/src/types.ts): the credential fields are required
strings, the token fields are optional. -/
structure PipeAccount where
  username : String
  password : String
  userId : String
  userAppKey : String
  accessToken : Option String
  refreshToken : Option String
  tokenExpiry : Option Nat
deriving DecidableEq, Repr

/-- Body of a successful token-endpoint response (`/auth/refresh`,
`/auth/login`): `refresh_token` may be absent from the JSON. -/
structure TokenResponse where
  access_token : String
  refresh_token : Option String
  expires_in : Nat
deriving DecidableEq, Repr

/-- Result of one axios POST to a token endpoint: `ok status body` is a
resolved promise (axios resolves on 2xx only, and the source then compares
`status === 200`); `err` is a rejected promise (network failure or non-2xx
status), which lands in the `catch` block. -/
inductive HttpResult
  | ok (status : Nat) (body : TokenResponse)
  | err
deriving DecidableEq, Repr

/-- Environment for one `getAuthHeaders` evaluation: the current clock value
`Date.now()` and the outcome each token endpoint would produce if called. -/
structure AuthEnv where
  now : Nat
  refreshResult : HttpResult
  loginResult : HttpResult
deriving DecidableEq, Repr

/-- Which HTTP calls an operation issued, in order. -/
inductive NetCall
  | refresh
  | login
  | exchange
deriving DecidableEq, Repr

/-- The header pair produced by `getAuthHeaders`: either the single
`Authorization: Bearer <token>` header, or the legacy
`X-User-Id` / `X-User-App-Key` pair. -/
inductive AuthHeaders
  | bearer (token : String)
  | legacy (userId : String) (userAppKey : String)
deriving DecidableEq, Repr

/-- The SDK error taxonomy (src/src/errors.ts) as far as the modelled
operations throw it. -/
inductive SdkError
  | validationError (message : String)
  | apiError (message : String) (status : Option Nat) (code : String)
deriving DecidableEq, Repr

/-- Equality on `Except` results is decidable when it is on both sides. -/
instance exceptDecEq {ε α : Type} [DecidableEq ε] [DecidableEq α] :
    DecidableEq (Except ε α) := fun a b =>
  match a, b with
  | .ok x, .ok y =>
    if h : x = y then .isTrue (by rw [h]) else .isFalse (by intro hc; cases hc; exact h rfl)
  | .error x, .error y =>
    if h : x = y then .isTrue (by rw [h]) else .isFalse (by intro hc; cases hc; exact h rfl)
  | .ok _, .error _ => .isFalse (by intro hc; cases hc)
  | .error _, .ok _ => .isFalse (by intro hc; cases hc)

/-- Full outcome of `getAuthHeaders`: the returned headers or the thrown
error, the account record afterwards (it is mutated in place by the source),
and the network calls issued. -/
structure AuthOutcome where
  result : Except SdkError AuthHeaders
  account : PipeAccount
  calls : List NetCall
deriving DecidableEq, Repr

/-- The guard of the cached-token fast path (src/src/client.ts line 582):
`account.accessToken && account.tokenExpiry && Date.now() < account.tokenExpiry`. -/
def validCached (env : AuthEnv) (account : PipeAccount) : Bool :=
  strTruthy account.accessToken && natTruthy account.tokenExpiry
    && decide (env.now < account.tokenExpiry.getD 0)

/-- The legacy fallback and final failure (src/src/client.ts lines 633-640):
`if (account.userAppKey && account.userAppKey !== 'jwt-based')` return the
`X-User-Id` / `X-User-App-Key` pair, else throw
`PipeApiError('No valid authentication available', 401)`. -/
def legacyFallback (account : PipeAccount) (calls : List NetCall) : AuthOutcome :=
  if account.userAppKey != "" && account.userAppKey != "jwt-based" then
    { result := .ok (.legacy account.userId account.userAppKey)
      account := account
      calls := calls }
  else
    { result := .error (.apiError "No valid authentication available" (some 401) "UNKNOWN")
      account := account
      calls := calls }

/-- The re-login stage (src/src/client.ts lines 610-631): guarded by
`if (account.username && account.password)`.  On a 200 response all three
token fields are overwritten (`account.refreshToken = tokens.refresh_token`
is a plain assignment).  A resolved non-200 response falls through to the
legacy fallback.  A rejected promise lands in the `catch`, which throws
`PipeApiError('Authentication failed - unable to refresh or re-login', 401)`
— the legacy fallback is NOT reached in that case. -/
def loginStage (env : AuthEnv) (account : PipeAccount) (calls : List NetCall) :
    AuthOutcome :=
  if account.username != "" && account.password != "" then
    match env.loginResult with
    | .ok status tokens =>
      if status = 200 then
        { result := .ok (.bearer tokens.access_token)
          account := { account with
            accessToken := some tokens.access_token
            refreshToken := tokens.refresh_token
            tokenExpiry := some (env.now + tokens.expires_in * 1000) }
          calls := calls ++ [.login] }
      else legacyFallback account (calls ++ [.login])
    | .err =>
      { result := .error (.apiError
          "Authentication failed - unable to refresh or re-login" (some 401) "UNKNOWN")
        account := account
        calls := calls ++ [.login] }
  else legacyFallback account calls

/-- `PipeClient.getAuthHeaders` (src/src/client.ts lines 578-641).
Fast path: with a truthy cached token and a truthy expiry still in the
future, return the cached bearer header, no network call, no mutation.
Refresh: guarded by `if (account.refreshToken)`; on a 200 response the
account is updated with
`account.refreshToken = tokens.refresh_token || account.refreshToken`
(the old token is kept when the response carries no truthy refresh_token)
and the new bearer header is returned.  A rejected refresh is caught and
logged; a resolved non-200 refresh falls out of the `if`; both continue
with the re-login stage. -/
def getAuthHeaders (env : AuthEnv) (account : PipeAccount) : AuthOutcome :=
  if validCached env account then
    { result := .ok (.bearer (account.accessToken.getD ""))
      account := account
      calls := [] }
  else if strTruthy account.refreshToken then
    match env.refreshResult with
    | .ok status tokens =>
      if status = 200 then
        { result := .ok (.bearer tokens.access_token)
          account := { account with
            accessToken := some tokens.access_token
            refreshToken :=
              if strTruthy tokens.refresh_token then tokens.refresh_token
              else account.refreshToken
            tokenExpiry := some (env.now + tokens.expires_in * 1000) }
          calls := [.refresh] }
      else loginStage env account [.refresh]
    | .err => loginStage env account [.refresh]
  else
    loginStage env account []

/-! ## Currency exchange (`PipeClient.exchangeSolForPipe`, src/src/client.ts
544-572) and `validateAmount` (src/src/validation.ts 114-130) -/

/-- A JavaScript `number` as far as the modelled code inspects it: `NaN`,
the two infinities, or a finite value (modelled as a rational). -/
inductive JSNum
  | nan
  | posInf
  | negInf
  | finite (q : Rat)
deriving DecidableEq, Repr

/-- `isNaN(x)`. -/
def JSNum.isNaN : JSNum → Bool
  | .nan => true
  | _ => false

/-- IEEE-754 comparison `x <= 0` as JavaScript evaluates it: any comparison
with `NaN` is false; `-Infinity <= 0` is true; `Infinity <= 0` is false. -/
def JSNum.le0 : JSNum → Bool
  | .nan => false
  | .posInf => false
  | .negInf => true
  | .finite q => decide (q ≤ 0)

/-- JS truthiness of a number: `NaN` and `0` are falsy. -/
def JSNum.truthy : JSNum → Bool
  | .nan => false
  | .posInf => true
  | .negInf => true
  | .finite q => q != 0

/-- JS `a || b` on an optional numeric field: a missing field, `NaN` and `0`
are falsy. -/
def jsOrNum : Option JSNum → JSNum → JSNum
  | some a, b => if a.truthy then a else b
  | none, b => b

/-- `ValidationResult` (src/src/validation.ts). -/
structure ValidationResult where
  valid : Bool
  error : Option String
deriving DecidableEq, Repr

/-- `validateAmount` (src/src/validation.ts lines 114-130): rejects `NaN`
(`isNaN(amount)`) and non-positive amounts (`amount <= 0`); everything else
— including `Infinity` — is accepted.  The `typeof amount !== 'number'`
disjunct is vacuous in this typed model. -/
def validateAmount (amount : JSNum) : ValidationResult :=
  if amount.isNaN then ⟨false, some "Amount must be a valid number"⟩
  else if amount.le0 then ⟨false, some "Amount must be greater than 0"⟩
  else ⟨true, none⟩

/-- Result of the POST to `/exchangeSolForTokens`: a resolved response with
the three numeric fields the source probes (`tokens_minted`, `pipe_tokens`,
`amount`, each possibly absent), a rejection carrying a response status, or
a rejection with no response. -/
inductive ExchangeHttp
  | ok (status : Nat) (tokens_minted : Option JSNum) (pipe_tokens : Option JSNum)
      (amount : Option JSNum)
  | errStatus (status : Nat)
  | errNetwork
deriving DecidableEq, Repr

/-- Outcome of `exchangeSolForPipe`: returned amount or thrown error, the
account afterwards, and the network calls issued. -/
structure ExchangeOutcome where
  result : Except SdkError JSNum
  account : PipeAccount
  calls : List NetCall
deriving DecidableEq, Repr

/-- `PipeClient.exchangeSolForPipe` (src/src/client.ts lines 544-572):
`assertValidAmount(solAmount)` runs first and throws a
`PipeValidationError` carrying the validation message before
`getAuthHeaders` and before any HTTP call.  Then headers are obtained (any
error from `getAuthHeaders` propagates), the POST is issued, and on success
`data.tokens_minted || data.pipe_tokens || data.amount || 0` is returned.
A 402 rejection maps to `INSUFFICIENT_SOL`, other failures to `UNKNOWN`. -/
def exchangeSolForPipe (env : AuthEnv) (xhttp : ExchangeHttp)
    (account : PipeAccount) (solAmount : JSNum) : ExchangeOutcome :=
  if (validateAmount solAmount).valid then
    let auth := getAuthHeaders env account
    match auth.result with
    | .error e => { result := .error e, account := auth.account, calls := auth.calls }
    | .ok _ =>
      match xhttp with
      | .ok _ tm pt am =>
        { result := .ok (jsOrNum tm (jsOrNum pt (jsOrNum am (.finite 0))))
          account := auth.account
          calls := auth.calls ++ [.exchange] }
      | .errStatus 402 =>
        { result := .error (.apiError "Insufficient SOL balance for exchange"
            (some 402) "INSUFFICIENT_SOL")
          account := auth.account
          calls := auth.calls ++ [.exchange] }
      | .errStatus s =>
        { result := .error (.apiError "Exchange failed" (some s) "UNKNOWN")
          account := auth.account
          calls := auth.calls ++ [.exchange] }
      | .errNetwork =>
        { result := .error (.apiError "Exchange failed" none "UNKNOWN")
          account := auth.account
          calls := auth.calls ++ [.exchange] }
  else
    { result := .error (.validationError ((validateAmount solAmount).error.getD ""))
      account := account
      calls := [] }

/-! ## Content addressing (`PipeClient.calculateBlake3Hash`,
src/src/client.ts 646-662) -/

/-- JS `byte.toString(16).padStart(2, '0')`: the base-16 digit string of the
byte (lowercase, via `Nat.toDigits`), left-padded with `'0'` to two
characters. -/
def byteToHex (b : Nat) : String :=
  let ds := Nat.toDigits 16 b
  String.mk (List.replicate (2 - ds.length) '0' ++ ds)

/-- `Array.from(hashBytes, (byte) => byte.toString(16).padStart(2, '0')).join('')`. -/
def bytesToHex (bytes : List Nat) : String :=
  String.join (bytes.map byteToHex)

/-- `PipeClient.calculateBlake3Hash` (src/src/client.ts lines 646-662):
`try` to import blake3 and hash with `dkLen: 32`; if the import fails,
`catch` falls back to sha256.  The two hash functions are external library
code (`@noble/hashes`), passed here as parameters; `blake3Available` is the
outcome of the dynamic import.  Either way the hash bytes are hex-encoded
and returned; the function is total — no error reaches the caller. -/
def calculateBlake3Hash (blake3Available : Bool)
    (blake3 : List Nat → List Nat) (sha256 : List Nat → List Nat)
    (data : List Nat) : String :=
  if blake3Available then bytesToHex (blake3 data)
  else bytesToHex (sha256 data)

/-- A lowercase hexadecimal digit. -/
def isLowerHexDigit (c : Char) : Bool :=
  (decide ('0' ≤ c) && decide (c ≤ '9')) || (decide ('a' ≤ c) && decide (c ≤ 'f'))

/-- The refresh attempt does not succeed: either it is skipped because the
account holds no truthy refresh token, or the `/auth/refresh` call does not
come back as a 200 response. -/
def refreshNoSuccess (env : AuthEnv) (account : PipeAccount) : Prop :=
  strTruthy account.refreshToken = false ∨ env.refreshResult = .err ∨
    ∃ s body, s ≠ 200 ∧ env.refreshResult = .ok s body

/-! ## Sample data used by witnesses and counterexamples -/

/-- Sample manifest record. -/
def recA : FileRecord := ⟨"idA", "a.txt", 1, 10, "hashA"⟩

/-- Sample manifest record, distinct identifier. -/
def recB : FileRecord := ⟨"idB", "b.txt", 2, 20, "hashB"⟩

/-- Same identifier as `recB`, different metadata. -/
def recB2 : FileRecord := ⟨"idB", "b-v2.txt", 3, 30, "hashB2"⟩

/-- Sample manifest record, third identifier. -/
def recC : FileRecord := ⟨"idC", "c.txt", 4, 40, "hashC"⟩

/-- A stored credential record whose `userAppKey` field is missing while the
three fields the code checks are present and non-empty. -/
def storedNoAppKey : StoredAccount :=
  ⟨some "user1234", some "pass1234", some "uid-1", none⟩

/-- A stored credential record whose `username` field is missing. -/
def storedNoUsername : StoredAccount :=
  ⟨none, some "pass1234", some "uid-1", some "key-1"⟩

/-- An account holding full login credentials, a usable legacy key and a
refresh token, but no cached access token. -/
def acctLegacyOnly : PipeAccount :=
  ⟨"user1234", "pass1234", "uid-1", "appkey-1", none, some "rt-1", none⟩

/-- An account whose `accessToken` field is present but holds the empty
string (falsy in JS), with a refresh token and an expiry in the future. -/
def acctEmptyToken : PipeAccount :=
  ⟨"user1234", "pass1234", "uid-1", "appkey-1", some "", some "rt-1", some 100⟩

/-- An account with a valid cached access token (expiry 100). -/
def acctValidTok : PipeAccount :=
  ⟨"user1234", "pass1234", "uid-1", "appkey-1", some "tok-1", none, some 100⟩

/-- An account with no username/password, no cached token, a refresh token,
and a usable legacy key. -/
def acctNoCreds : PipeAccount :=
  ⟨"", "", "uid-1", "appkey-1", none, some "rt-1", none⟩

end Firestarter

namespace Firestarter

/-! # Theorems -/

/-! ## C2 — manifest upsert -/

/-- Counting matches of `file.fileId` in a list whose ids avoid it gives 0. -/
theorem countP_eq_zero_of_not_mem (file : FileRecord) (xs : List FileRecord)
    (h : file.fileId ∉ xs.map FileRecord.fileId) :
    xs.countP (fun f => f.fileId == file.fileId) = 0 := by
  rw [List.countP_eq_zero]
  intro a ha hp
  exact h (List.mem_map.mpr ⟨a, ha, (beq_iff_eq.mp hp).symm ▸ rfl⟩)

/-- In-place update at the found index: the updated list carries exactly one
entry matching the identifier, and it sits at the index where `findIndex`
located the old entry. -/
theorem set_at_findIndex (file : FileRecord) :
    ∀ (files : List FileRecord) (i : Nat),
      findIndex (fun f => f.fileId == file.fileId) files = some i →
      (files.map FileRecord.fileId).Nodup →
      (files.set i file).countP (fun f => f.fileId == file.fileId) = 1 ∧
      (files.set i file).get? i = some file := by
  intro files
  induction files with
  | nil => intro i h; simp [findIndex] at h
  | cons x xs ih =>
    intro i h hnd
    rw [List.map_cons, List.nodup_cons] at hnd
    by_cases hx : (x.fileId == file.fileId) = true
    · rw [findIndex, if_pos hx] at h
      cases h
      constructor
      · have hz : xs.countP (fun f => f.fileId == file.fileId) = 0 := by
          apply countP_eq_zero_of_not_mem
          rw [← beq_iff_eq.mp hx]
          exact hnd.1
        simp [List.countP_cons, hz]
      · rfl
    · rw [findIndex, if_neg hx] at h
      cases hj : findIndex (fun f => f.fileId == file.fileId) xs with
      | none => rw [hj] at h; simp at h
      | some j =>
        rw [hj] at h
        simp only [Option.map_some'] at h
        cases h
        have := ih j hj hnd.2
        constructor
        · simpa [List.countP_cons, hx] using this.1
        · simpa using this.2

/-- `findIndex` returning `none` means no entry satisfies the predicate. -/
theorem findIndex_eq_none {α : Type} (p : α → Bool) :
    ∀ (l : List α), findIndex p l = none → ∀ a ∈ l, p a = false := by
  intro l
  induction l with
  | nil => intro _ a ha; cases ha
  | cons x xs ih =>
    intro h a ha
    by_cases hx : p x = true
    · rw [findIndex, if_pos hx] at h
      cases h
    · rw [findIndex, if_neg hx] at h
      rcases List.mem_cons.mp ha with rfl | ha2
      · exact Bool.eq_false_iff.mpr hx
      · cases hj : findIndex p xs with
        | none => exact ih hj a ha2
        | some j => rw [hj] at h; simp at h

/-- Replacing the entry found by `findIndex` with a record carrying the same
identifier leaves the list of identifiers unchanged. -/
theorem map_fileId_set_at_findIndex (file : FileRecord) :
    ∀ (files : List FileRecord) (i : Nat),
      findIndex (fun f => f.fileId == file.fileId) files = some i →
      (files.set i file).map FileRecord.fileId = files.map FileRecord.fileId := by
  intro files
  induction files with
  | nil => intro i h; simp [findIndex] at h
  | cons x xs ih =>
    intro i h
    by_cases hx : (x.fileId == file.fileId) = true
    · rw [findIndex, if_pos hx] at h
      cases h
      simp [beq_iff_eq.mp hx]
    · rw [findIndex, if_neg hx] at h
      cases hj : findIndex (fun f => f.fileId == file.fileId) xs with
      | none => rw [hj] at h; simp at h
      | some j =>
        rw [hj] at h
        simp only [Option.map_some'] at h
        cases h
        simp [ih j hj]

/-- One `addFile` step preserves distinctness of the manifest identifiers. -/
theorem addFileList_ids_nodup (m : Nat) (file : FileRecord)
    (files : List FileRecord) (hnd : (files.map FileRecord.fileId).Nodup) :
    ((addFileList m file files).map FileRecord.fileId).Nodup := by
  unfold addFileList
  cases hf : findIndex (fun f => f.fileId == file.fileId) files with
  | some i => rw [map_fileId_set_at_findIndex file files i hf]; exact hnd
  | none =>
    have hfresh : file.fileId ∉ files.map FileRecord.fileId := by
      intro hmem
      rcases List.mem_map.mp hmem with ⟨a, ha, hid⟩
      have := findIndex_eq_none _ files hf a ha
      simp [hid] at this
    have hcons : ((file :: files).map FileRecord.fileId).Nodup := by
      rw [List.map_cons, List.nodup_cons]
      exact ⟨hfresh, hnd⟩
    rw [List.map_take]
    exact hcons.sublist (List.take_sublist m _)

/-- Every manifest reachable by `addFile` operations from the empty manifest
has pairwise-distinct identifiers, so the distinctness hypothesis of the
amended upsert theorem holds on all reachable states. -/
theorem buildManifest_ids_nodup (m : Nat) (ops : List FileRecord) :
    ((buildManifest m ops).map FileRecord.fileId).Nodup := by
  suffices h : ∀ (l : List FileRecord) (s : List FileRecord),
      (s.map FileRecord.fileId).Nodup →
      ((l.foldl (fun t f => addFileList m f t) s).map FileRecord.fileId).Nodup by
    exact h ops [] (by simp)
  intro l
  induction l with
  | nil => intro s hs; simpa using hs
  | cons f rest ih =>
    intro s hs
    exact ih _ (addFileList_ids_nodup m f s hs)

/-- C2 (counterexample). The claim states that after upserting a record whose
identifier already occurs in the manifest, the updated entry is at the head
of the list.  In the source (`files[existingIndex] = file`) the entry is
replaced in place: upserting `recB2` (same `fileId` as `recB`) into
`[recA, recB]` yields `[recA, recB2]`, whose head is `recA`, not the updated
entry. -/
theorem c2_head_counterexample :
    addFileList 1000 recB2 [recA, recB] = [recA, recB2] ∧
    (addFileList 1000 recB2 [recA, recB]).head? ≠ some recB2 := by decide

/-- C2 (amended). For every manifest whose identifiers are pairwise distinct
and every record whose identifier already occurs in it (at the index located
by `findIndex`), `addFile` updates that entry in place: the result is
`files.set i file`, it carries exactly one entry with the identifier, that
entry is the newly supplied record, and it sits at the same index `i` as
before (not necessarily at the head). -/
theorem c2_upsert_in_place (m : Nat) (file : FileRecord) (files : List FileRecord)
    (i : Nat) (hnd : (files.map FileRecord.fileId).Nodup)
    (hfind : findIndex (fun f => f.fileId == file.fileId) files = some i) :
    addFileList m file files = files.set i file ∧
    (addFileList m file files).countP (fun f => f.fileId == file.fileId) = 1 ∧
    (addFileList m file files).get? i = some file := by
  have heq : addFileList m file files = files.set i file := by
    unfold addFileList
    rw [hfind]
  have h := set_at_findIndex file files i hfind hnd
  exact ⟨heq, heq ▸ h.1, heq ▸ h.2⟩

/-- C2 (witness): the amended theorem applied to the concrete manifest
`[recA, recB]` and the updated record `recB2` at index 1. -/
theorem c2_upsert_in_place_witness :
    addFileList 1000 recB2 [recA, recB] = [recA, recB].set 1 recB2 ∧
    (addFileList 1000 recB2 [recA, recB]).countP
      (fun f => f.fileId == recB2.fileId) = 1 ∧
    (addFileList 1000 recB2 [recA, recB]).get? 1 = some recB2 :=
  c2_upsert_in_place 1000 recB2 [recA, recB] 1 (by decide) (by decide)

/-! ## C5 — manifest capacity and eviction -/

/-- One `addFile` step keeps the manifest within capacity. -/
theorem addFileList_length_le (m : Nat) (f : FileRecord) (s : List FileRecord)
    (h : s.length ≤ m) : (addFileList m f s).length ≤ m := by
  unfold addFileList
  cases hf : findIndex (fun g => g.fileId == f.fileId) s with
  | some i => simpa using h
  | none =>
    rw [List.length_take]
    exact min_le_left _ _

/-- C5. Starting from the empty manifest, no sequence of `addFile` operations
drives the length above `maxFiles`; and when a record with a fresh
identifier is inserted, the result is the first `maxFiles` entries of
`file :: files` — so the entries dropped are exactly the tail
`(file :: files).drop maxFiles`, the oldest entries of the
most-recent-first list. -/
theorem c5_capacity_and_eviction (m : Nat) :
    (∀ ops : List FileRecord, (buildManifest m ops).length ≤ m) ∧
    (∀ (f : FileRecord) (files : List FileRecord),
      findIndex (fun g => g.fileId == f.fileId) files = none →
      addFileList m f files = (f :: files).take m ∧
      (f :: files).take m ++ (f :: files).drop m = f :: files) := by
  constructor
  · intro ops
    suffices h : ∀ (l : List FileRecord) (s : List FileRecord), s.length ≤ m →
        (l.foldl (fun t f => addFileList m f t) s).length ≤ m by
      exact h ops [] (by simp)
    intro l
    induction l with
    | nil => intro s hs; simpa using hs
    | cons f rest ih =>
      intro s hs
      exact ih _ (addFileList_length_le m f s hs)
  · intro f files hnone
    constructor
    · unfold addFileList
      rw [hnone]
    · exact List.take_append_drop m (f :: files)

/-- C5 (witness): capacity 2, three distinct records; the third insertion
evicts the oldest entry. -/
theorem c5_capacity_and_eviction_witness :
    (buildManifest 2 [recA, recB, recC]).length ≤ 2 ∧
    (addFileList 2 recC [recA, recB] = (recC :: [recA, recB]).take 2 ∧
      (recC :: [recA, recB]).take 2 ++ (recC :: [recA, recB]).drop 2 =
        recC :: [recA, recB]) :=
  ⟨(c5_capacity_and_eviction 2).1 [recA, recB, recC],
    (c5_capacity_and_eviction 2).2 recC [recA, recB] (by decide)⟩

/-! ## C3 — write failures and the error surface -/

/-- C3 (counterexample). The claim states that a failing persistence write
makes `addFile` and `removeFile` raise to the caller.  In the source both
wrap the write in `try { ... } catch (error) { console.error(...) }` with no
re-throw: on a failing write (`writeOk = false`) they return normally
(`raised = false`) and leave the stored list unchanged. -/
theorem c3_swallow_counterexample :
    (PipeFileStorage.addFile false 1000 recA []).raised = false ∧
    (PipeFileStorage.addFile false 1000 recA []).state = [] ∧
    (PipeFileStorage.removeFile false "idA" [recA]).raised = false ∧
    (PipeFileStorage.removeFile false "idA" [recA]).state = [recA] := by decide

/-- C3 (amended). When the persistence medium's write fails, `save` re-raises
the underlying error to the caller (the source re-throws the raw error, not
a dedicated storage-error type), while `addFile` and `removeFile` catch the
failure, log it, and return normally with the stored state unchanged — for
those two the failure IS silently swallowed. -/
theorem c3_only_save_raises :
    (∀ (writeOk : Bool) (a : StoredAccount) (slot : AccountSlot),
      (PipeAccountStorage.save writeOk a slot).raised = !writeOk ∧
      (PipeAccountStorage.save writeOk a slot).state =
        if writeOk then .record a else slot) ∧
    (∀ (writeOk : Bool) (m : Nat) (f : FileRecord) (files : List FileRecord),
      (PipeFileStorage.addFile writeOk m f files).raised = false ∧
      (PipeFileStorage.addFile writeOk m f files).state =
        if writeOk then addFileList m f files else files) ∧
    (∀ (writeOk : Bool) (fid : String) (files : List FileRecord),
      (PipeFileStorage.removeFile writeOk fid files).raised = false ∧
      (PipeFileStorage.removeFile writeOk fid files).state =
        if writeOk then files.filter (fun f => f.fileId != fid) else files) := by
  refine ⟨?_, ?_, ?_⟩
  · intro writeOk a slot
    cases writeOk <;> simp [PipeAccountStorage.save]
  · intro writeOk m f files
    cases writeOk <;> simp [PipeFileStorage.addFile]
  · intro writeOk fid files
    cases writeOk <;> simp [PipeFileStorage.removeFile]

/-! ## C4 — credential load validation -/

/-- C4 (counterexample). The claim states that a stored record missing any of
the four fields `username`, `password`, `userId`, `userAppKey` makes
`load()` return absent and clear the slot.  The source validates only the
first three: a record with `userAppKey` missing is returned as-is and the
slot is kept. -/
theorem c4_appkey_counterexample :
    storedNoAppKey.userAppKey = none ∧
    PipeAccountStorage.load (.record storedNoAppKey) =
      (some storedNoAppKey, .record storedNoAppKey) := by decide

/-- C4 (amended). `load()` returns absent and clears the slot exactly when
one of the three validated fields — `username`, `password`, `userId` — is
missing or empty; `userAppKey` is not validated.  `load` never raises: it is
a total function, and on data `JSON.parse` rejects it returns absent
(without clearing the slot). -/
theorem c4_load_validates_three_fields (a : StoredAccount) :
    ((strTruthy a.username = false ∨ strTruthy a.password = false ∨
        strTruthy a.userId = false) →
      PipeAccountStorage.load (.record a) = (none, .empty)) ∧
    PipeAccountStorage.load .corrupt = (none, .corrupt) := by
  constructor
  · intro h
    unfold PipeAccountStorage.load
    rcases h with h | h | h <;> simp [h]
  · rfl

/-- C4 (witness): the amended theorem applied to a record with a missing
`username`. -/
theorem c4_load_validates_three_fields_witness :
    (strTruthy storedNoUsername.username = false ∨
      strTruthy storedNoUsername.password = false ∨
      strTruthy storedNoUsername.userId = false) ∧
    PipeAccountStorage.load (.record storedNoUsername) = (none, .empty) ∧
    PipeAccountStorage.load .corrupt = (none, .corrupt) :=
  ⟨by decide,
    (c4_load_validates_three_fields storedNoUsername).1 (by decide),
    (c4_load_validates_three_fields storedNoUsername).2⟩

/-! ## C1, C6, C10 — the getAuthHeaders chain -/

/-- When the cached token is unusable and the refresh attempt does not come
back as a 200 response, `getAuthHeaders` continues with the re-login stage
(with the refresh call on record when one was issued). -/
theorem getAuthHeaders_reaches_login (env : AuthEnv) (account : PipeAccount)
    (hvalid : validCached env account = false)
    (hrefresh : refreshNoSuccess env account) :
    getAuthHeaders env account = loginStage env account [.refresh] ∨
    getAuthHeaders env account = loginStage env account [] := by
  unfold getAuthHeaders
  cases hrt : strTruthy account.refreshToken
  · right
    simp [hvalid, hrt]
  · left
    rcases hrefresh with h | h | ⟨s, body, hs, h⟩
    · rw [hrt] at h
      cases h
    · simp [hvalid, hrt, h]
    · simp [hvalid, hrt, h, hs]

/-- C1 (counterexample). The claim states that when both the token refresh
and the full re-login fail, an account with a usable `userAppKey` still gets
the legacy header pair and no error is raised.  In the source the re-login
`catch` throws `PipeApiError('Authentication failed - unable to refresh or
re-login', 401)` immediately, so with full credentials present and both
calls failing, `getAuthHeaders` raises — the legacy fallback is never
reached even though `userAppKey` is present and not the sentinel. -/
theorem c1_throw_counterexample :
    acctLegacyOnly.userAppKey ≠ "" ∧ acctLegacyOnly.userAppKey ≠ "jwt-based" ∧
    getAuthHeaders ⟨0, .err, .err⟩ acctLegacyOnly =
      { result := .error (.apiError
          "Authentication failed - unable to refresh or re-login" (some 401) "UNKNOWN")
        account := acctLegacyOnly
        calls := [.refresh, .login] } := by decide

/-- C1 (amended). With an unusable cached token, a refresh attempt that does
not succeed, and a usable legacy key (non-empty and not the sentinel
`'jwt-based'`): if username and password are present and the login request
throws, `getAuthHeaders` raises the API error `'Authentication failed -
unable to refresh or re-login'` without consulting the legacy fallback; the
legacy non-bearer header pair is returned when the re-login attempt is
skipped because username or password is missing. -/
theorem c1_legacy_reachability (env : AuthEnv) (account : PipeAccount)
    (hvalid : validCached env account = false)
    (hrefresh : refreshNoSuccess env account)
    (hkey1 : account.userAppKey ≠ "") (hkey2 : account.userAppKey ≠ "jwt-based") :
    ((account.username ≠ "" ∧ account.password ≠ "" ∧ env.loginResult = .err) →
      (getAuthHeaders env account).result = .error (.apiError
        "Authentication failed - unable to refresh or re-login" (some 401) "UNKNOWN")) ∧
    ((account.username = "" ∨ account.password = "") →
      (getAuthHeaders env account).result =
        .ok (.legacy account.userId account.userAppKey)) := by
  have hlog := getAuthHeaders_reaches_login env account hvalid hrefresh
  constructor
  · rintro ⟨hu, hp, hl⟩
    have hall : ∀ calls, (loginStage env account calls).result = .error (.apiError
        "Authentication failed - unable to refresh or re-login" (some 401) "UNKNOWN") := by
      intro calls
      unfold loginStage
      rw [hl]
      simp [hu, hp]
    rcases hlog with h | h <;> rw [h] <;> exact hall _
  · intro hcred
    have hall : ∀ calls, (loginStage env account calls).result =
        .ok (.legacy account.userId account.userAppKey) := by
      intro calls
      unfold loginStage
      have hcond : (account.username != "" && account.password != "") = false := by
        rcases hcred with h | h <;> simp [h]
      rw [hcond]
      simp [legacyFallback, hkey1, hkey2]
    rcases hlog with h | h <;> rw [h] <;> exact hall _

/-- C1 (witness): the amended theorem applied to an account with empty
credentials, a failing refresh, and the usable legacy key `appkey-1`. -/
theorem c1_legacy_reachability_witness :
    (acctNoCreds.username = "" ∨ acctNoCreds.password = "") ∧
    (getAuthHeaders ⟨0, .err, .err⟩ acctNoCreds).result =
      .ok (.legacy "uid-1" "appkey-1") :=
  ⟨Or.inl rfl,
    (c1_legacy_reachability ⟨0, .err, .err⟩ acctNoCreds (by decide)
      (Or.inr (Or.inl rfl)) (by decide) (by decide)).2 (Or.inl rfl)⟩

/-- C6 (counterexample). The claim quantifies over every account with
`accessToken` present, `tokenExpiry` present and `now` before the expiry.
An account whose `accessToken` holds the empty string is such an account,
but the empty string is falsy in JS, so the source skips the cached-token
path: with a refresh token on the account it issues a refresh call, mutates
the account, and returns the refreshed bearer header — not the cached one. -/
theorem c6_empty_token_counterexample :
    acctEmptyToken.accessToken.isSome = true ∧
    acctEmptyToken.tokenExpiry = some 100 ∧ (5 : Nat) < 100 ∧
    getAuthHeaders ⟨5, .ok 200 ⟨"tok-new", none, 60⟩, .err⟩ acctEmptyToken =
      { result := .ok (.bearer "tok-new")
        account := ⟨"user1234", "pass1234", "uid-1", "appkey-1",
          some "tok-new", some "rt-1", some 60005⟩
        calls := [.refresh] } := by decide

/-- C6 (amended). For every account whose `accessToken` is present and
non-empty, whose `tokenExpiry` is present, and with the current time
strictly before the expiry, `getAuthHeaders` returns the cached bearer
header, issues no network call, and leaves the account record unchanged. -/
theorem c6_valid_cached_no_network (env : AuthEnv) (account : PipeAccount)
    (t : String) (e : Nat) (hat : account.accessToken = some t) (ht : t ≠ "")
    (hte : account.tokenExpiry = some e) (hnow : env.now < e) :
    getAuthHeaders env account =
      { result := .ok (.bearer t), account := account, calls := [] } := by
  have he : e ≠ 0 := by omega
  have hvalid : validCached env account = true := by
    unfold validCached
    rw [hat, hte]
    simp [strTruthy, natTruthy, ht, he, hnow]
  unfold getAuthHeaders
  rw [hvalid]
  simp [hat]

/-- C6 (witness): the amended theorem applied to an account with cached token
`tok-1` and expiry 100 at time 5. -/
theorem c6_valid_cached_no_network_witness :
    acctValidTok.accessToken = some "tok-1" ∧ ("tok-1" : String) ≠ "" ∧
    acctValidTok.tokenExpiry = some 100 ∧ (5 : Nat) < 100 ∧
    getAuthHeaders ⟨5, .err, .err⟩ acctValidTok =
      { result := .ok (.bearer "tok-1"), account := acctValidTok, calls := [] } :=
  ⟨rfl, by decide, rfl, by decide,
    c6_valid_cached_no_network ⟨5, .err, .err⟩ acctValidTok "tok-1" 100 rfl
      (by decide) rfl (by decide)⟩

/-- C10. When the cached token is unusable, the account holds a truthy
refresh token, and the refresh call returns 200 with a body carrying no
`refresh_token` field, `getAuthHeaders` returns the fresh bearer header
after exactly the refresh call, updates `accessToken` and `tokenExpiry`,
and preserves the account's previous `refreshToken`
(`tokens.refresh_token || account.refreshToken`). -/
theorem c10_refresh_preserves_refresh_token (env : AuthEnv) (account : PipeAccount)
    (tokens : TokenResponse) (hvalid : validCached env account = false)
    (hrt : strTruthy account.refreshToken = true)
    (hres : env.refreshResult = .ok 200 tokens)
    (hnone : tokens.refresh_token = none) :
    (getAuthHeaders env account).result = .ok (.bearer tokens.access_token) ∧
    (getAuthHeaders env account).account.refreshToken = account.refreshToken ∧
    (getAuthHeaders env account).account.accessToken = some tokens.access_token ∧
    (getAuthHeaders env account).account.tokenExpiry =
      some (env.now + tokens.expires_in * 1000) ∧
    (getAuthHeaders env account).calls = [.refresh] := by
  unfold getAuthHeaders
  rw [hvalid, hrt, hres]
  simp [hnone, strTruthy]

/-- C10 (witness): refresh succeeds at time 7 with a body that has no
`refresh_token`; the account keeps `rt-1`. -/
theorem c10_refresh_preserves_refresh_token_witness :
    validCached ⟨7, .ok 200 ⟨"tok-new", none, 60⟩, .err⟩ acctLegacyOnly = false ∧
    strTruthy acctLegacyOnly.refreshToken = true ∧
    (TokenResponse.refresh_token ⟨"tok-new", none, 60⟩) = none ∧
    (getAuthHeaders ⟨7, .ok 200 ⟨"tok-new", none, 60⟩, .err⟩ acctLegacyOnly).result =
      .ok (.bearer "tok-new") ∧
    (getAuthHeaders ⟨7, .ok 200 ⟨"tok-new", none, 60⟩, .err⟩
        acctLegacyOnly).account.refreshToken = acctLegacyOnly.refreshToken :=
  ⟨by decide, by decide, rfl,
    (c10_refresh_preserves_refresh_token ⟨7, .ok 200 ⟨"tok-new", none, 60⟩, .err⟩
      acctLegacyOnly ⟨"tok-new", none, 60⟩ (by decide) (by decide) rfl rfl).1,
    (c10_refresh_preserves_refresh_token ⟨7, .ok 200 ⟨"tok-new", none, 60⟩, .err⟩
      acctLegacyOnly ⟨"tok-new", none, 60⟩ (by decide) (by decide) rfl rfl).2.1⟩

/-! ## C7 — amount validation before the network -/

/-- C7 (counterexample). The claim covers every amount that is not a finite
positive number; `Infinity` is such an amount, yet `validateAmount` accepts
it (`isNaN(Infinity)` is false and `Infinity <= 0` is false), so
`exchangeSolForPipe` proceeds to the network: with a valid cached token the
POST to `/exchangeSolForTokens` is issued and its result returned — no
`ValidationError` and an HTTP request on the wire. -/
theorem c7_infinity_counterexample :
    (validateAmount .posInf).valid = true ∧
    exchangeSolForPipe ⟨5, .err, .err⟩ (.ok 200 (some (.finite 3)) none none)
        acctValidTok .posInf =
      { result := .ok (.finite 3)
        account := acctValidTok
        calls := [.exchange] } := by decide

/-- C7 (amended). For every amount that is `NaN` or compares `<= 0` (for
example `-1` and `0`), `exchangeSolForPipe` raises a `ValidationError`
carrying the validation message before any network call or authentication
attempt: no HTTP request is issued and the account is untouched.
(`Infinity` is not rejected — the source only checks `isNaN` and
`amount <= 0`.) -/
theorem c7_validation_before_network (env : AuthEnv) (xhttp : ExchangeHttp)
    (account : PipeAccount) (amount : JSNum)
    (h : amount.isNaN = true ∨ amount.le0 = true) :
    exchangeSolForPipe env xhttp account amount =
      { result := .error (.validationError ((validateAmount amount).error.getD ""))
        account := account
        calls := [] } := by
  have hva : (validateAmount amount).valid = false := by
    unfold validateAmount
    rcases h with h | h
    · simp [h]
    · cases hn : amount.isNaN <;> simp [hn, h]
  unfold exchangeSolForPipe
  rw [hva]
  simp

/-- C7 (witness): the amended theorem applied to `amount = -1`. -/
theorem c7_validation_before_network_witness :
    ((JSNum.finite (-1)).isNaN = true ∨ (JSNum.finite (-1)).le0 = true) ∧
    exchangeSolForPipe ⟨5, .err, .err⟩ .errNetwork acctValidTok (.finite (-1)) =
      { result := .error (.validationError "Amount must be greater than 0")
        account := acctValidTok
        calls := [] } :=
  ⟨by decide,
    c7_validation_before_network ⟨5, .err, .err⟩ .errNetwork acctValidTok
      (.finite (-1)) (by decide)⟩

/-! ## C8, C9 — content addressing -/

/-- C8. `calculateBlake3Hash` is deterministic: with the same hash-algorithm
availability and the same hash implementations, identical byte sequences
yield identical hex identifiers.  The model is a total function — in the
source neither hex encoding nor the installed hash library throws, so
hashing always returns a value. -/
theorem c8_hash_deterministic (avail avail2 : Bool)
    (blake3 sha256 : List Nat → List Nat) (d d2 : List Nat)
    (ha : avail = avail2) (hd : d = d2) :
    calculateBlake3Hash avail blake3 sha256 d =
      calculateBlake3Hash avail2 blake3 sha256 d2 := by
  rw [ha, hd]

/-- C8 (witness): two calls on the byte sequence `"hi"` with blake3
available agree. -/
theorem c8_hash_deterministic_witness :
    (true = true ∧ ([104, 105] : List Nat) = [104, 105]) ∧
    calculateBlake3Hash true (fun l => l ++ l) (fun l => l) [104, 105] =
      calculateBlake3Hash true (fun l => l ++ l) (fun l => l) [104, 105] :=
  ⟨⟨rfl, rfl⟩,
    c8_hash_deterministic true true (fun l => l ++ l) (fun l => l)
      [104, 105] [104, 105] rfl rfl⟩

set_option maxRecDepth 4096 in
/-- Each byte below 256 renders as exactly two lowercase hex characters. -/
theorem byteToHex_spec : ∀ b : Nat, b < 256 →
    (byteToHex b).length = 2 ∧ (byteToHex b).data.all isLowerHexDigit = true := by
  decide

/-- Hex encoding of a byte list: character data, length, and character set. -/
theorem bytesToHex_spec (bytes : List Nat) (hb : ∀ y ∈ bytes, y < 256) :
    (bytesToHex bytes).length = 2 * bytes.length ∧
    (bytesToHex bytes).data.all isLowerHexDigit = true := by
  have hdata : (bytesToHex bytes).data =
      (bytes.map (fun b => (byteToHex b).data)).flatten := by
    unfold bytesToHex
    rw [String.data_join, List.map_map]
    rfl
  have hlen : (bytesToHex bytes).length = (bytesToHex bytes).data.length :=
    (String.length_data _).symm
  rw [hlen, hdata]
  clear hdata hlen
  induction bytes with
  | nil => simp
  | cons x xs ih =>
    have hx := byteToHex_spec x (hb x (List.mem_cons_self x xs))
    have hxs := ih (fun y hy => hb y (List.mem_cons_of_mem x hy))
    have hxlen : (byteToHex x).data.length = 2 := by
      rw [String.length_data]
      exact hx.1
    constructor
    · simp only [List.map_cons, List.flatten_cons, List.length_append, hxlen,
        List.length_cons, hxs.1]
      ring
    · simp only [List.map_cons, List.flatten_cons, List.all_append]
      rw [hx.2, hxs.2]
      rfl

/-- C9. Whichever hash path is taken, as long as the selected hash function
returns 32 bytes (values below 256) — blake3 is called with `dkLen: 32` and
sha256 always produces 32 bytes — the identifier is a string of exactly 64
characters, each a lowercase hexadecimal digit (two zero-padded digits per
byte). -/
theorem c9_identifier_hex64 (avail : Bool) (blake3 sha256 : List Nat → List Nat)
    (d : List Nat)
    (hb1 : (blake3 d).length = 32) (hb2 : ∀ y ∈ blake3 d, y < 256)
    (hs1 : (sha256 d).length = 32) (hs2 : ∀ y ∈ sha256 d, y < 256) :
    (calculateBlake3Hash avail blake3 sha256 d).length = 64 ∧
    (calculateBlake3Hash avail blake3 sha256 d).data.all isLowerHexDigit = true := by
  unfold calculateBlake3Hash
  cases avail
  · have h := bytesToHex_spec (sha256 d) hs2
    rw [hs1] at h
    simpa using h
  · have h := bytesToHex_spec (blake3 d) hb2
    rw [hb1] at h
    simpa using h

/-- C9 (witness): both hash functions pinned to concrete 32-byte outputs on
the payload `"hi"`. -/
theorem c9_identifier_hex64_witness :
    ((fun _ : List Nat => (List.range 32)) [104, 105]).length = 32 ∧
    (∀ y ∈ (fun _ : List Nat => (List.range 32)) [104, 105], y < 256) ∧
    ((fun _ : List Nat => List.replicate 32 255) [104, 105]).length = 32 ∧
    (∀ y ∈ (fun _ : List Nat => List.replicate 32 255) [104, 105], y < 256) ∧
    ((calculateBlake3Hash true (fun _ => List.range 32)
        (fun _ => List.replicate 32 255) [104, 105]).length = 64 ∧
      (calculateBlake3Hash true (fun _ => List.range 32)
        (fun _ => List.replicate 32 255) [104, 105]).data.all isLowerHexDigit = true) :=
  ⟨by decide, by decide, by decide, by decide,
    c9_identifier_hex64 true (fun _ => List.range 32) (fun _ => List.replicate 32 255)
      [104, 105] (by decide) (by decide) (by decide) (by decide)⟩

end Firestarter
